import Mathlib

/-!
# orbitip: command dispatch for NFC reader callbacks

A shallow embedding of `orbitip.go` and the properties of its dispatcher, its
handler registry and its server factory.

Conventions of the embedding.

* A Go map is a `GoMap`: either the nil map or an allocated table.  Reading and
  deleting are defined on both; assigning into the nil map panics, which is the
  `Except.error` result.
* A Go `[]byte` is a `Bytes`: the nil slice or a slice with contents.
* An `error` is `Option String`: `none` is the nil error, `some msg` an error
  whose text is `msg`.
* A `HandlerFunc` is a total function of the `Params` record.  So that the
  calls made by the dispatcher can be observed, `ServeMux.ServeHTTP` returns,
  next to the final state of the response writer, the list of handler calls it
  made, one entry for every call `fn(Params{...})` executed in the source.
* The packages `net/http`, `net/url` and `fmt` are outside the repository; the
  few operations the source uses are modelled in the namespaces `http` and
  `url` after their documented behaviour.
-/

namespace orbitip

/-! ## Go built-ins -/

/-- A Go map value: the nil map, or an allocated table.  The table is kept as a
list of entries in which the first entry for a key is the binding of that key. -/
inductive GoMap (κ : Type) (ν : Type) where
  | nil : GoMap κ ν
  | table (entries : List (κ × ν)) : GoMap κ ν

namespace GoMap

variable {κ ν : Type} [DecidableEq κ]

/-- The binding of `k` among the entries of a table. -/
def find (k : κ) : List (κ × ν) → Option ν
  | [] => none
  | e :: rest => if e.1 = k then some e.2 else find k rest

/-- The entries of a table less those for the key `k`. -/
def without (k : κ) : List (κ × ν) → List (κ × ν)
  | [] => []
  | e :: rest => if e.1 = k then without k rest else e :: without k rest

/-- The comma-ok read `v, ok := m[k]`: `some v` when `ok`, `none` otherwise.
Reading the nil map finds nothing. -/
def index (m : GoMap κ ν) (k : κ) : Option ν :=
  match m with
  | nil => none
  | table es => find k es

/-- The assignment `m[k] = v`.  It replaces the binding of `k` and leaves the
other keys alone; on the nil map it panics. -/
def assign (m : GoMap κ ν) (k : κ) (v : ν) : Except String (GoMap κ ν) :=
  match m with
  | nil => Except.error "assignment to entry in nil map"
  | table es => Except.ok (table ((k, v) :: without k es))

/-- The built-in `delete(m, k)`: removes the binding of `k` when there is one,
and does nothing otherwise, also on the nil map. -/
def delete (m : GoMap κ ν) (k : κ) : GoMap κ ν :=
  match m with
  | nil => nil
  | table es => table (without k es)

end GoMap

/-- One byte of a payload. -/
abbrev Byte := Fin 256

/-- A Go `[]byte`: the nil slice, or a slice with the given contents. -/
inductive Bytes where
  | nil : Bytes
  | slice (data : List Byte) : Bytes
  deriving DecidableEq, Repr

/-- The bytes held by a slice; the nil slice holds none. -/
def Bytes.toList : Bytes → List Byte
  | Bytes.nil => []
  | Bytes.slice data => data

/-! ## The parts of `net/url` and `net/http` the source uses -/

/-- The type `url.Values`, a `map[string][]string`. -/
abbrev url.Values := GoMap String (List String)

/-- The method `Values.Get`: the first value associated with the key, and the
empty string when there is none.  Keys are compared as they are. -/
def url.Values.Get (v : url.Values) (key : String) : String :=
  match v.index key with
  | none => ""
  | some [] => ""
  | some (x :: _) => x

/-- A request URL.  The field `Query` is what the method `URL.Query()` returns:
the values parsed from the raw query string. -/
structure url.URL where
  Query : url.Values

/-- An inbound request, of which the dispatcher reads the URL only. -/
structure http.Request where
  URL : url.URL

def http.StatusOK : Nat := 200
def http.StatusNotFound : Nat := 404
def http.StatusInternalServerError : Nat := 500

/-- The state of an `http.ResponseWriter`: the status code once the header has
been written, and the body bytes written so far. -/
structure http.ResponseWriter where
  status : Option Nat
  body : List Byte
  deriving DecidableEq, Repr

/-- The writer a server hands to a handler: nothing written yet. -/
def http.ResponseWriter.fresh : http.ResponseWriter :=
  { status := none, body := [] }

/-- The method `WriteHeader`: fixes the status code; a second call has no effect
on the response. -/
def http.ResponseWriter.WriteHeader (w : http.ResponseWriter) (code : Nat) :
    http.ResponseWriter :=
  match w.status with
  | some _ => w
  | none => { w with status := some code }

/-- The method `Write`: writes the header with status 200 when none was written
yet, then appends the bytes to the body. -/
def http.ResponseWriter.Write (w : http.ResponseWriter) (b : Bytes) :
    http.ResponseWriter :=
  let w1 := w.WriteHeader http.StatusOK
  { w1 with body := w1.body ++ b.toList }

/-! ## `orbitip.go` -/

/-- Command defines NFC reader command types (`type Command string`). -/
structure Command where
  str : String
  deriving DecidableEq, Repr

/-- String returns the command string. -/
def Command.String (c : Command) : String := c.str

def PU : Command := Command.mk "PU"
def HB : Command := Command.mk "HB"
def CO : Command := Command.mk "CO"
def SW : Command := Command.mk "SW"
def PG : Command := Command.mk "PG"

/-- Ext defines the NFC path extension. -/
structure Ext where
  ID : Nat
  Name : String
  deriving DecidableEq, Repr

/-- Return the string of the extension. -/
def Ext.String (e : Ext) : String := e.Name

def PHP : Ext := Ext.mk 0 ".php"
def ASP : Ext := Ext.mk 1 ".asp"
def CFM : Ext := Ext.mk 2 ".cfm"
def PL : Ext := Ext.mk 3 ".pl"
def HTM : Ext := Ext.mk 4 ".htm"
def HTML : Ext := Ext.mk 5 ".html"
def ASPX : Ext := Ext.mk 6 ".aspx"
def JSP : Ext := Ext.mk 7 ".jsp"

def DefaultRoot : String := "/orbit"
def DefaultExt : Ext := PHP

/-- Params sent by the NFC reader. -/
structure Params where
  Date : String
  Time : String
  ID : String
  ULen : String
  UID : String
  Command : String
  Version : String
  Contact1 : String
  Contact2 : String
  SID : String
  Data : String
  PSRC : String
  MD5 : String
  MAC : String
  Relay : String
  SD : String
  deriving DecidableEq, Repr

/-- The HandlerFunc type: an ordinary function from the parameters to a payload
and an error. -/
abbrev HandlerFunc := Params → Bytes × Option String

/-- Handlers maps an NFC command to a specific HandlerFunc. -/
abbrev Handlers := GoMap Command HandlerFunc

/-- Set sets a HandlerFunc for the given NFC command (`h[cmd] = fn`). -/
def Handlers.Set (h : Handlers) (cmd : Command) (fn : HandlerFunc) :
    Except String Handlers :=
  h.assign cmd fn

/-- Del removes a HandlerFunc for the given NFC command (`delete(h, cmd)`). -/
def Handlers.Del (h : Handlers) (cmd : Command) : Handlers :=
  h.delete cmd

/-- The ServeMux type, the dispatcher.  It holds the registry itself, not a
copy: a later `Set` or `Del` on the registry is what the next dispatch reads. -/
structure ServeMux where
  handlers : Handlers

/-- Handlers returns the NFC Command to HandlerFunc map. -/
def ServeMux.Handlers (m : ServeMux) : Handlers := m.handlers

/-- One executed call `fn(parms)` of a handler. -/
structure Call where
  fn : HandlerFunc
  parms : Params

/-- What one run of the dispatcher leaves behind: the response writer, and the
handler calls made, in order. -/
structure Served where
  w : http.ResponseWriter
  calls : List Call

/-- ServeHTTP handles an NFC HTTP request, first checking if a HandlerFunc
exists for the NFC command and if so calling that function. -/
def ServeMux.ServeHTTP (m : ServeMux) (w : http.ResponseWriter) (r : http.Request) :
    Served :=
  let values := r.URL.Query
  match m.handlers.index (Command.mk (values.Get "cmd")) with
  | none => { w := w.WriteHeader http.StatusNotFound, calls := [] }
  | some fn =>
    let parms : Params :=
      { Date := values.Get "date"
        Time := values.Get "time"
        ID := values.Get "id"
        ULen := values.Get "ulen"
        UID := values.Get "uid"
        Command := values.Get "cmd"
        Version := values.Get "ver"
        Contact1 := values.Get "contact1"
        Contact2 := values.Get "contact2"
        SID := values.Get "sid"
        Data := values.Get "data"
        PSRC := values.Get "psrc"
        MD5 := values.Get "md5"
        MAC := values.Get "mac"
        Relay := values.Get "relay"
        SD := values.Get "sd" }
    match fn parms with
    | (_, some _) =>
      { w := w.WriteHeader http.StatusInternalServerError, calls := [Call.mk fn parms] }
    | (b, none) =>
      { w := (w.WriteHeader http.StatusOK).Write b, calls := [Call.mk fn parms] }

/-- NewServeMux constructs a new ServeMux. -/
def NewServeMux (handlers : Handlers) : ServeMux :=
  { handlers := handlers }

/-- The `http.ServeMux` of the standard library, as far as `New` uses it: the
registered patterns with their handlers, in registration order. -/
structure http.ServeMux where
  entries : List (String × orbitip.ServeMux)

/-- The function `http.NewServeMux`: a multiplexer with nothing registered. -/
def http.NewServeMux : http.ServeMux :=
  { entries := [] }

/-- The method `http.ServeMux.Handle`.  It panics on the empty pattern, on a
pattern the pattern syntax of the Go release in use rejects, and on a pattern
that is registered already; otherwise it registers the handler.  The syntax
test beyond non-emptiness differs between Go releases and is the argument
`syntaxOK` (up to Go 1.21 every non-empty pattern passes). -/
def http.ServeMux.Handle (syntaxOK : String → Bool) (mux : http.ServeMux)
    (pattern : String) (handler : orbitip.ServeMux) : Except String http.ServeMux :=
  if pattern = "" then Except.error "http: invalid pattern"
  else if syntaxOK pattern = false then Except.error "http: invalid pattern"
  else if mux.entries.any (fun e => decide (e.1 = pattern)) then
    Except.error ("http: multiple registrations for " ++ pattern)
  else Except.ok { entries := mux.entries ++ [(pattern, handler)] }

/-- The type `http.Server`, with the two fields `New` sets. -/
structure http.Server where
  Addr : String
  Handler : http.ServeMux

/-- New constructs a new HTTP server for running the NFC HTTP server.  The
pattern is `fmt.Sprintf("%s%s", root, ext)`; for the verb `%s` an operand with a
`String` method is formatted by calling it, so the pattern is `root` followed by
`ext.String()`. -/
def New (syntaxOK : String → Bool) (addr : String) (root : String) (ext : Ext)
    (handlers : Handlers) : Except String http.Server :=
  match http.NewServeMux.Handle syntaxOK (root ++ ext.String) (NewServeMux handlers) with
  | Except.error e => Except.error e
  | Except.ok mux => Except.ok { Addr := addr, Handler := mux }

/-! ## Vocabulary of the specification -/

/-- The Params record built from a request: every field is the query value of
the parameter name that belongs to it. -/
def Params.ofRequest (r : http.Request) : Params :=
  { Date := r.URL.Query.Get "date"
    Time := r.URL.Query.Get "time"
    ID := r.URL.Query.Get "id"
    ULen := r.URL.Query.Get "ulen"
    UID := r.URL.Query.Get "uid"
    Command := r.URL.Query.Get "cmd"
    Version := r.URL.Query.Get "ver"
    Contact1 := r.URL.Query.Get "contact1"
    Contact2 := r.URL.Query.Get "contact2"
    SID := r.URL.Query.Get "sid"
    Data := r.URL.Query.Get "data"
    PSRC := r.URL.Query.Get "psrc"
    MD5 := r.URL.Query.Get "md5"
    MAC := r.URL.Query.Get "mac"
    Relay := r.URL.Query.Get "relay"
    SD := r.URL.Query.Get "sd" }

/-- The sixteen fields of the record, each with its query parameter name. -/
def Params.fields : List (String × (Params → String)) :=
  [("date", Params.Date), ("time", Params.Time), ("id", Params.ID),
   ("ulen", Params.ULen), ("uid", Params.UID), ("cmd", Params.Command),
   ("ver", Params.Version), ("contact1", Params.Contact1),
   ("contact2", Params.Contact2), ("sid", Params.SID), ("data", Params.Data),
   ("psrc", Params.PSRC), ("md5", Params.MD5), ("mac", Params.MAC),
   ("relay", Params.Relay), ("sd", Params.SD)]

/-- The sixteen recognized query parameter names. -/
def recognized : List String :=
  ["cmd", "date", "time", "id", "ulen", "uid", "ver", "contact1", "contact2",
   "sid", "data", "psrc", "md5", "mac", "relay", "sd"]

/-- The known command vocabulary. -/
def vocabulary : List Command := [PU, HB, CO, SW, PG]

/-- The command a request is dispatched on: its `cmd` query value. -/
def commandOf (r : http.Request) : Command :=
  Command.mk (r.URL.Query.Get "cmd")

/-- The dispatch of one request against a registry: a dispatcher over the
registry serves the request into a fresh response writer. -/
def dispatch (hs : Handlers) (r : http.Request) : Served :=
  (NewServeMux hs).ServeHTTP http.ResponseWriter.fresh r

/-- The response with the given status code and body. -/
def response (code : Nat) (body : List Byte) : http.ResponseWriter :=
  { status := some code, body := body }

/-! ## Sample data -/

/-- The request with the given query parameters, each with one value. -/
def requestOf (query : List (String × String)) : http.Request :=
  { URL := { Query := GoMap.table (query.map (fun kv => (kv.1, [kv.2]))) } }

/-- The bytes of `pong`. -/
def pong : List Byte := [112, 111, 110, 103]

/-- A handler that answers `pong`. -/
def pongHandler : HandlerFunc := fun _ => (Bytes.slice pong, none)

/-- A handler that fails, and returns a payload next to the error. -/
def failingHandler : HandlerFunc := fun _ => (Bytes.slice pong, some "reader offline")

/-- A handler that succeeds with the nil payload. -/
def emptyHandler : HandlerFunc := fun _ => (Bytes.nil, none)

/-! ## The Go map operations -/

theorem GoMap.find_without_self {κ ν : Type} [DecidableEq κ] (k : κ) (es : List (κ × ν)) :
    GoMap.find k (GoMap.without k es) = none := by
  induction es with
  | nil => rfl
  | cons e rest ih =>
    by_cases h : e.1 = k
    · simp [GoMap.without, h, ih]
    · simp [GoMap.without, h, GoMap.find, ih]

theorem GoMap.find_without_other {κ ν : Type} [DecidableEq κ] (k k' : κ) (hne : k' ≠ k)
    (es : List (κ × ν)) :
    GoMap.find k' (GoMap.without k es) = GoMap.find k' es := by
  induction es with
  | nil => rfl
  | cons e rest ih =>
    by_cases h : e.1 = k
    · have h' : ¬ e.1 = k' := fun h2 => hne (h2.symm.trans h)
      rw [GoMap.without, if_pos h, GoMap.find, if_neg h', ih]
    · by_cases h2 : e.1 = k'
      · rw [GoMap.without, if_neg h, GoMap.find, if_pos h2, GoMap.find, if_pos h2]
      · rw [GoMap.without, if_neg h, GoMap.find, if_neg h2, GoMap.find, if_neg h2, ih]

theorem GoMap.without_absent {κ ν : Type} [DecidableEq κ] (k : κ) (es : List (κ × ν))
    (habs : GoMap.find k es = none) :
    GoMap.without k es = es := by
  induction es with
  | nil => rfl
  | cons e rest ih =>
    by_cases h : e.1 = k
    · simp [GoMap.find, h] at habs
    · simp [GoMap.find, h] at habs
      simp [GoMap.without, h, ih habs]

theorem GoMap.index_delete_self {κ ν : Type} [DecidableEq κ] (m : GoMap κ ν) (k : κ) :
    (m.delete k).index k = none := by
  cases m with
  | nil => rfl
  | table es => exact GoMap.find_without_self k es

theorem GoMap.index_delete_other {κ ν : Type} [DecidableEq κ] (m : GoMap κ ν) (k k' : κ)
    (hne : k' ≠ k) : (m.delete k).index k' = m.index k' := by
  cases m with
  | nil => rfl
  | table es => exact GoMap.find_without_other k k' hne es

theorem GoMap.delete_absent {κ ν : Type} [DecidableEq κ] (m : GoMap κ ν) (k : κ)
    (habs : m.index k = none) : m.delete k = m := by
  cases m with
  | nil => rfl
  | table es =>
    show GoMap.table (GoMap.without k es) = GoMap.table es
    rw [GoMap.without_absent k es habs]

theorem GoMap.assign_table {κ ν : Type} [DecidableEq κ] (es : List (κ × ν)) (k : κ) (v : ν) :
    (GoMap.table es).assign k v
      = Except.ok (GoMap.table ((k, v) :: GoMap.without k es)) := rfl

theorem GoMap.index_assigned_self {κ ν : Type} [DecidableEq κ] (es : List (κ × ν)) (k : κ)
    (v : ν) :
    (GoMap.table ((k, v) :: GoMap.without k es)).index k = some v := by
  simp [GoMap.index, GoMap.find]

theorem GoMap.index_assigned_other {κ ν : Type} [DecidableEq κ] (es : List (κ × ν))
    (k k' : κ) (v : ν) (hne : k' ≠ k) :
    (GoMap.table ((k, v) :: GoMap.without k es)).index k'
      = (GoMap.table es).index k' := by
  have h : ¬ k = k' := fun h => hne h.symm
  simp [GoMap.index, GoMap.find, h, GoMap.find_without_other k k' hne es]

/-! ## The dispatcher, case by case -/

theorem dispatch_unbound (hs : Handlers) (r : http.Request)
    (hnone : hs.index (commandOf r) = none) :
    dispatch hs r = { w := response 404 [], calls := [] } := by
  unfold commandOf at hnone
  simp [dispatch, NewServeMux, ServeMux.ServeHTTP, hnone, response,
    http.ResponseWriter.WriteHeader, http.ResponseWriter.fresh, http.StatusNotFound]

theorem dispatch_failure (hs : Handlers) (r : http.Request) (fn : HandlerFunc)
    (payload : Bytes) (e : String)
    (hsome : hs.index (commandOf r) = some fn)
    (hret : fn (Params.ofRequest r) = (payload, some e)) :
    dispatch hs r
      = { w := response 500 [], calls := [Call.mk fn (Params.ofRequest r)] } := by
  unfold commandOf at hsome
  unfold Params.ofRequest at hret
  simp [dispatch, NewServeMux, ServeMux.ServeHTTP, hsome, hret, response, Params.ofRequest,
    http.ResponseWriter.WriteHeader, http.ResponseWriter.fresh,
    http.StatusInternalServerError]

theorem dispatch_success (hs : Handlers) (r : http.Request) (fn : HandlerFunc)
    (payload : Bytes)
    (hsome : hs.index (commandOf r) = some fn)
    (hret : fn (Params.ofRequest r) = (payload, none)) :
    dispatch hs r
      = { w := response 200 payload.toList, calls := [Call.mk fn (Params.ofRequest r)] } := by
  unfold commandOf at hsome
  unfold Params.ofRequest at hret
  simp [dispatch, NewServeMux, ServeMux.ServeHTTP, hsome, hret, response, Params.ofRequest,
    http.ResponseWriter.WriteHeader, http.ResponseWriter.Write, http.ResponseWriter.fresh,
    http.StatusOK]

theorem dispatch_calls (hs : Handlers) (r : http.Request) (fn : HandlerFunc)
    (hsome : hs.index (commandOf r) = some fn) :
    (dispatch hs r).calls = [Call.mk fn (Params.ofRequest r)] := by
  rcases hret : fn (Params.ofRequest r) with ⟨payload, err⟩
  cases err with
  | none => rw [dispatch_success hs r fn payload hsome hret]
  | some e => rw [dispatch_failure hs r fn payload e hsome hret]

theorem url.Values.Get_absent (v : url.Values) (key : String)
    (habs : v.index key = none) : v.Get key = "" := by
  simp [url.Values.Get, habs]

theorem dispatch_bound_not_404 (hs : Handlers) (r : http.Request) (fn : HandlerFunc)
    (hsome : hs.index (commandOf r) = some fn) :
    (dispatch hs r).w ≠ response 404 [] := by
  rcases hret : fn (Params.ofRequest r) with ⟨payload, err⟩
  cases err with
  | none =>
    rw [dispatch_success hs r fn payload hsome hret]
    simp [response]
  | some e =>
    rw [dispatch_failure hs r fn payload e hsome hret]
    simp [response]

/-! ## The claims -/

/-- C1: for every registry, every command `c` bound in it to a handler `h`, and
every request whose `cmd` query value is `c`: when `h` returns a payload and no
error on the Params record built from the request, ServeHTTP calls `h` exactly
once, on that record, and the response is status 200 with the payload as body,
byte for byte; the body is empty when the payload is the nil or the empty
slice. -/
theorem C1_success_is_200_with_payload (hs : Handlers) (c : Command) (h : HandlerFunc)
    (r : http.Request) (payload : Bytes)
    (hbound : hs.index c = some h) (hcmd : commandOf r = c)
    (hret : h (Params.ofRequest r) = (payload, none)) :
    (NewServeMux hs).ServeHTTP http.ResponseWriter.fresh r
        = { w := { status := some 200, body := payload.toList },
            calls := [Call.mk h (Params.ofRequest r)] }
      ∧ ((payload = Bytes.nil ∨ payload = Bytes.slice []) →
          ((NewServeMux hs).ServeHTTP http.ResponseWriter.fresh r).w.body = []) := by
  subst hcmd
  have hrun := dispatch_success hs r h payload hbound hret
  unfold dispatch response at hrun
  refine ⟨hrun, ?_⟩
  intro hempty
  rw [hrun]
  rcases hempty with rfl | rfl <;> rfl

/-- C1, at the end-to-end scenario: a handler for `PG` answering `pong`, and the
request `cmd=PG`. -/
theorem C1_success_is_200_with_payload_witness :
    (GoMap.table [(PG, pongHandler)] : Handlers).index PG = some pongHandler
      ∧ commandOf (requestOf [("cmd", "PG")]) = PG
      ∧ pongHandler (Params.ofRequest (requestOf [("cmd", "PG")])) = (Bytes.slice pong, none)
      ∧ (NewServeMux (GoMap.table [(PG, pongHandler)])).ServeHTTP
            http.ResponseWriter.fresh (requestOf [("cmd", "PG")])
          = { w := { status := some 200, body := [112, 111, 110, 103] },
              calls := [Call.mk pongHandler (Params.ofRequest (requestOf [("cmd", "PG")]))] } :=
  ⟨rfl, rfl, rfl,
    (C1_success_is_200_with_payload (GoMap.table [(PG, pongHandler)]) PG pongHandler
      (requestOf [("cmd", "PG")]) (Bytes.slice pong) rfl rfl rfl).1⟩

/-- C2: for every registry and every request whose `cmd` query value has no
handler bound in the registry, ServeHTTP responds with status 404 and an empty
body and calls no handler, whatever the other query parameters are. -/
theorem C2_unbound_is_404 (hs : Handlers) (r : http.Request)
    (hnone : hs.index (Command.mk (r.URL.Query.Get "cmd")) = none) :
    (NewServeMux hs).ServeHTTP http.ResponseWriter.fresh r
      = { w := { status := some 404, body := [] }, calls := [] } :=
  dispatch_unbound hs r hnone

/-- C2, at the end-to-end scenario: the empty registry and the request
`cmd=CO&uid=ABC123`. -/
theorem C2_unbound_is_404_witness :
    (GoMap.table [] : Handlers).index
        (Command.mk ((requestOf [("cmd", "CO"), ("uid", "ABC123")]).URL.Query.Get "cmd")) = none
      ∧ (NewServeMux (GoMap.table [])).ServeHTTP http.ResponseWriter.fresh
            (requestOf [("cmd", "CO"), ("uid", "ABC123")])
          = { w := { status := some 404, body := [] }, calls := [] } :=
  ⟨rfl, C2_unbound_is_404 (GoMap.table []) (requestOf [("cmd", "CO"), ("uid", "ABC123")]) rfl⟩

/-- C3: for every registry, every command `c` bound to a handler `h`, and every
request with `cmd=c`: when `h` returns an error, with whatever payload next to
it, ServeHTTP responds with status 500 and an empty body, so neither the
payload nor the text of the error is in the response. -/
theorem C3_failure_is_500_empty (hs : Handlers) (c : Command) (h : HandlerFunc)
    (r : http.Request) (payload : Bytes) (e : String)
    (hbound : hs.index c = some h) (hcmd : commandOf r = c)
    (hret : h (Params.ofRequest r) = (payload, some e)) :
    (NewServeMux hs).ServeHTTP http.ResponseWriter.fresh r
      = { w := { status := some 500, body := [] },
          calls := [Call.mk h (Params.ofRequest r)] } := by
  subst hcmd
  exact dispatch_failure hs r h payload e hbound hret

/-- C3, at the end-to-end scenario: a handler for `HB` that returns an error
next to a payload, and the request `cmd=HB`. -/
theorem C3_failure_is_500_empty_witness :
    (GoMap.table [(HB, failingHandler)] : Handlers).index HB = some failingHandler
      ∧ commandOf (requestOf [("cmd", "HB")]) = HB
      ∧ failingHandler (Params.ofRequest (requestOf [("cmd", "HB")]))
          = (Bytes.slice pong, some "reader offline")
      ∧ (NewServeMux (GoMap.table [(HB, failingHandler)])).ServeHTTP
            http.ResponseWriter.fresh (requestOf [("cmd", "HB")])
          = { w := { status := some 500, body := [] },
              calls := [Call.mk failingHandler (Params.ofRequest (requestOf [("cmd", "HB")]))] } :=
  ⟨rfl, rfl, rfl,
    C3_failure_is_500_empty (GoMap.table [(HB, failingHandler)]) HB failingHandler
      (requestOf [("cmd", "HB")]) (Bytes.slice pong) "reader offline" rfl rfl rfl⟩

/-- C4: for every request that reaches a registered handler, the handler is
called on a Params record in which each of the sixteen fields equals the query
value of the parameter name of that field, names compared exactly, and is the
empty string when the query string has no such parameter; the field Command is
the command the registry lookup used. -/
theorem C4_params_from_query (hs : Handlers) (r : http.Request) (fn : HandlerFunc)
    (hreach : hs.index (Command.mk (r.URL.Query.Get "cmd")) = some fn) :
    ∃ p : Params,
      ((NewServeMux hs).ServeHTTP http.ResponseWriter.fresh r).calls = [Call.mk fn p]
        ∧ (∀ nf ∈ Params.fields,
            nf.2 p = r.URL.Query.Get nf.1
              ∧ (r.URL.Query.index nf.1 = none → nf.2 p = ""))
        ∧ Command.mk p.Command = Command.mk (r.URL.Query.Get "cmd") := by
  refine ⟨Params.ofRequest r, dispatch_calls hs r fn hreach, ?_, rfl⟩
  intro nf hnf
  have hget : nf.2 (Params.ofRequest r) = r.URL.Query.Get nf.1 := by
    simp only [Params.fields, List.mem_cons, List.mem_singleton, List.not_mem_nil,
      or_false] at hnf
    rcases hnf with h | h | h | h | h | h | h | h | h | h | h | h | h | h | h | h <;>
      subst h <;> rfl
  refine ⟨hget, ?_⟩
  intro habs
  rw [hget]
  exact url.Values.Get_absent r.URL.Query nf.1 habs

/-- C4, at a request that gives `uid` and `cmd`, and `Date` in the wrong case:
the handler sees UID and Command, and an empty Date. -/
theorem C4_params_from_query_witness :
    (GoMap.table [(CO, pongHandler)] : Handlers).index
        (Command.mk
          ((requestOf [("cmd", "CO"), ("uid", "ABC123"), ("Date", "20240101")]).URL.Query.Get
            "cmd"))
        = some pongHandler
      ∧ ∃ p : Params,
          ((NewServeMux (GoMap.table [(CO, pongHandler)])).ServeHTTP http.ResponseWriter.fresh
              (requestOf [("cmd", "CO"), ("uid", "ABC123"), ("Date", "20240101")])).calls
            = [Call.mk pongHandler p]
          ∧ p.UID = "ABC123" ∧ p.Command = "CO" ∧ p.Date = "" :=
  ⟨rfl,
    match C4_params_from_query (GoMap.table [(CO, pongHandler)])
      (requestOf [("cmd", "CO"), ("uid", "ABC123"), ("Date", "20240101")]) pongHandler rfl with
    | ⟨p, hcalls, hfields, _⟩ =>
      ⟨p, hcalls,
        (hfields ("uid", Params.UID) (by simp [Params.fields])).1,
        (hfields ("cmd", Params.Command) (by simp [Params.fields])).1,
        (hfields ("date", Params.Date) (by simp [Params.fields])).2 rfl⟩⟩

/-- C5, as stated, fails on the nil registry: `Set` on it panics, so there is no
registry after the `Set` on which a dispatch would call the new handler. -/
theorem C5_set_on_nil_registry_panics :
    Handlers.Set GoMap.nil PG pongHandler
        = Except.error "assignment to entry in nil map"
      ∧ ¬ ∃ hs1 : Handlers,
          Handlers.Set GoMap.nil PG pongHandler = Except.ok hs1
            ∧ (dispatch hs1 (requestOf [("cmd", "PG")])).calls
                = [Call.mk pongHandler (Params.ofRequest (requestOf [("cmd", "PG")]))] := by
  refine ⟨rfl, ?_⟩
  rintro ⟨hs1, hset, _⟩
  simp [Handlers.Set, GoMap.assign] at hset

/-- C5, amended: for every registry that is not the nil map, every command `c`
and handler `h`, `Set(c, h)` returns, and afterwards `c` is bound to `h`, a
dispatch of a request with `cmd=c` calls `h` once and calls no other handler,
whether or not `c` was bound before, and every other command is bound as it
was before the `Set`. -/
theorem C5_set_last_write_wins (hs : Handlers) (c : Command) (h : HandlerFunc)
    (hnn : hs ≠ GoMap.nil) :
    ∃ hs1 : Handlers,
      hs.Set c h = Except.ok hs1
        ∧ hs1.index c = some h
        ∧ (∀ r : http.Request, Command.mk (r.URL.Query.Get "cmd") = c →
            ((NewServeMux hs1).ServeHTTP http.ResponseWriter.fresh r).calls
              = [Call.mk h (Params.ofRequest r)])
        ∧ (∀ c1 : Command, c1 ≠ c → hs1.index c1 = hs.index c1) := by
  cases hs with
  | nil => exact absurd rfl hnn
  | table es =>
    refine ⟨GoMap.table ((c, h) :: GoMap.without c es), rfl,
      GoMap.index_assigned_self es c h, ?_, ?_⟩
    · intro r hcmd
      apply dispatch_calls
      unfold commandOf
      rw [hcmd]
      exact GoMap.index_assigned_self es c h
    · intro c1 hne
      exact GoMap.index_assigned_other es c c1 h hne

/-- C5, amended, at a registry in which `PG` is bound to a failing handler:
after `Set(PG, pongHandler)` the request `cmd=PG` reaches `pongHandler`. -/
theorem C5_set_last_write_wins_witness :
    (GoMap.table [(PG, failingHandler)] : Handlers) ≠ GoMap.nil
      ∧ ∃ hs1 : Handlers,
          Handlers.Set (GoMap.table [(PG, failingHandler)]) PG pongHandler = Except.ok hs1
            ∧ ((NewServeMux hs1).ServeHTTP http.ResponseWriter.fresh
                  (requestOf [("cmd", "PG")])).calls
                = [Call.mk pongHandler (Params.ofRequest (requestOf [("cmd", "PG")]))] :=
  ⟨fun hnil => GoMap.noConfusion hnil,
    match C5_set_last_write_wins (GoMap.table [(PG, failingHandler)]) PG pongHandler
      (fun hnil => GoMap.noConfusion hnil) with
    | ⟨hs1, hset, _, hcalls, _⟩ => ⟨hs1, hset, hcalls (requestOf [("cmd", "PG")]) rfl⟩⟩

/-- C6: for every registry and command `c`: after `Del(c)` a dispatch of a
request with `cmd=c` responds 404 with an empty body and calls no handler;
`Del(c)` on a registry in which `c` is not bound returns the registry unchanged
(`Del` has no failing result at all); and every other command is bound as it was
before the `Del`. -/
theorem C6_del_unbinds (hs : Handlers) (c : Command) :
    (∀ r : http.Request, Command.mk (r.URL.Query.Get "cmd") = c →
        (NewServeMux (hs.Del c)).ServeHTTP http.ResponseWriter.fresh r
          = { w := { status := some 404, body := [] }, calls := [] })
      ∧ (hs.index c = none → hs.Del c = hs)
      ∧ (∀ c1 : Command, c1 ≠ c → (hs.Del c).index c1 = hs.index c1) := by
  refine ⟨?_, ?_, ?_⟩
  · intro r hcmd
    apply dispatch_unbound
    unfold commandOf
    rw [hcmd]
    exact GoMap.index_delete_self hs c
  · intro habs
    exact GoMap.delete_absent hs c habs
  · intro c1 hne
    exact GoMap.index_delete_other hs c c1 hne

/-- C6, at a registry in which `PG` and `HB` are bound: after `Del(PG)` the
request `cmd=PG` gets 404, `HB` is bound as before, and `Del(CO)` changes
nothing. -/
theorem C6_del_unbinds_witness :
    (NewServeMux (Handlers.Del (GoMap.table [(PG, pongHandler), (HB, failingHandler)]) PG)).ServeHTTP
          http.ResponseWriter.fresh (requestOf [("cmd", "PG")])
        = { w := { status := some 404, body := [] }, calls := [] }
      ∧ Handlers.Del (GoMap.table [(PG, pongHandler), (HB, failingHandler)]) CO
          = GoMap.table [(PG, pongHandler), (HB, failingHandler)]
      ∧ (Handlers.Del (GoMap.table [(PG, pongHandler), (HB, failingHandler)]) PG).index HB
          = (GoMap.table [(PG, pongHandler), (HB, failingHandler)] : Handlers).index HB :=
  ⟨(C6_del_unbinds (GoMap.table [(PG, pongHandler), (HB, failingHandler)]) PG).1
      (requestOf [("cmd", "PG")]) rfl,
    (C6_del_unbinds (GoMap.table [(PG, pongHandler), (HB, failingHandler)]) CO).2.1 rfl,
    (C6_del_unbinds (GoMap.table [(PG, pongHandler), (HB, failingHandler)]) PG).2.2 HB
      (by decide)⟩

/-- C7, as stated, fails at the empty root with an extension whose name is
empty: the concatenation is the empty pattern, on which `http.ServeMux.Handle`
panics, so `New` returns no server and registers no path. -/
theorem C7_empty_path_panics :
    New (fun _ => true) ":8080" "" (Ext.mk 0 "") (GoMap.table [])
        = Except.error "http: invalid pattern"
      ∧ ¬ ∃ srv : http.Server,
          New (fun _ => true) ":8080" "" (Ext.mk 0 "") (GoMap.table []) = Except.ok srv
            ∧ srv.Handler.entries.map Prod.fst = ["" ++ (Ext.mk 0 "").Name] := by
  refine ⟨rfl, ?_⟩
  rintro ⟨srv, hnew, _⟩
  simp [New, http.ServeMux.Handle, http.NewServeMux, Ext.String] at hnew

/-- C7, amended: for every root and extension whose concatenation
`root ++ ext.Name` is a pattern `http.ServeMux.Handle` accepts (it is not empty
and passes the pattern syntax of the Go release), `New` returns a server with
the given address whose multiplexer has exactly one registration, the dispatcher
over the given handlers under the path `root ++ ext.Name`; `Ext.String` returns
`Name` unchanged; for `DefaultRoot` and `DefaultExt` the path is `/orbit.php`;
and the eight extension constants give the suffixes `.php`, `.asp`, `.cfm`,
`.pl`, `.htm`, `.html`, `.aspx`, `.jsp`. -/
theorem C7_path_is_root_then_ext (syntaxOK : String → Bool) (addr root : String) (ext : Ext)
    (hs : Handlers) (hne : root ++ ext.Name ≠ "")
    (hok : syntaxOK (root ++ ext.Name) = true) :
    New syntaxOK addr root ext hs
        = Except.ok { Addr := addr,
                      Handler := { entries := [(root ++ ext.Name, NewServeMux hs)] } }
      ∧ ext.String = ext.Name
      ∧ DefaultRoot ++ DefaultExt.Name = "/orbit.php"
      ∧ [PHP, ASP, CFM, PL, HTM, HTML, ASPX, JSP].map Ext.String
          = [".php", ".asp", ".cfm", ".pl", ".htm", ".html", ".aspx", ".jsp"] := by
  refine ⟨?_, rfl, by decide, by decide⟩
  unfold New http.ServeMux.Handle
  rw [show ext.String = ext.Name from rfl, if_neg hne, hok]
  simp [http.NewServeMux]

/-- C7, amended, at the defaults: root `/orbit` and extension PHP register the
dispatcher under `/orbit.php`, and nothing else. -/
theorem C7_path_is_root_then_ext_witness :
    DefaultRoot ++ DefaultExt.Name ≠ ""
      ∧ (fun _ : String => true) (DefaultRoot ++ DefaultExt.Name) = true
      ∧ New (fun _ => true) ":8080" DefaultRoot DefaultExt (GoMap.table [(PG, pongHandler)])
          = Except.ok { Addr := ":8080",
                        Handler := { entries :=
                          [("/orbit.php", NewServeMux (GoMap.table [(PG, pongHandler)]))] } } :=
  ⟨by decide, rfl,
    (C7_path_is_root_then_ext (fun _ => true) ":8080" DefaultRoot DefaultExt
      (GoMap.table [(PG, pongHandler)]) (by decide) rfl).1⟩

/-- C8: parameters outside the sixteen recognized names are ignored: for every
registry and every two requests whose query values agree on the sixteen
recognized names, however the two query strings differ elsewhere, ServeHTTP
makes the same handler calls, with the same Params record to the same handler
or none at all, and leaves the same status and body. -/
theorem C8_other_parameters_ignored (hs : Handlers) (w : http.ResponseWriter)
    (r1 r2 : http.Request)
    (hagree : ∀ name ∈ recognized, r1.URL.Query.Get name = r2.URL.Query.Get name) :
    (NewServeMux hs).ServeHTTP w r1 = (NewServeMux hs).ServeHTTP w r2 := by
  have h1 := hagree "cmd" (by decide)
  have h2 := hagree "date" (by decide)
  have h3 := hagree "time" (by decide)
  have h4 := hagree "id" (by decide)
  have h5 := hagree "ulen" (by decide)
  have h6 := hagree "uid" (by decide)
  have h7 := hagree "ver" (by decide)
  have h8 := hagree "contact1" (by decide)
  have h9 := hagree "contact2" (by decide)
  have h10 := hagree "sid" (by decide)
  have h11 := hagree "data" (by decide)
  have h12 := hagree "psrc" (by decide)
  have h13 := hagree "md5" (by decide)
  have h14 := hagree "mac" (by decide)
  have h15 := hagree "relay" (by decide)
  have h16 := hagree "sd" (by decide)
  simp only [ServeMux.ServeHTTP, h1, h2, h3, h4, h5, h6, h7, h8, h9, h10, h11, h12, h13,
    h14, h15, h16]

/-- C8, at the requests `cmd=PG&uid=ABC123` and
`cmd=PG&uid=ABC123&debug=1&UID=zzz`: they differ on `debug` and on `UID`, and
are served alike. -/
theorem C8_other_parameters_ignored_witness :
    (∀ name ∈ recognized,
        (requestOf [("cmd", "PG"), ("uid", "ABC123")]).URL.Query.Get name
          = (requestOf [("cmd", "PG"), ("uid", "ABC123"), ("debug", "1"),
              ("UID", "zzz")]).URL.Query.Get name)
      ∧ (requestOf [("cmd", "PG"), ("uid", "ABC123")]).URL.Query.Get "debug"
          ≠ (requestOf [("cmd", "PG"), ("uid", "ABC123"), ("debug", "1"),
              ("UID", "zzz")]).URL.Query.Get "debug"
      ∧ (NewServeMux (GoMap.table [(PG, pongHandler)])).ServeHTTP http.ResponseWriter.fresh
            (requestOf [("cmd", "PG"), ("uid", "ABC123")])
          = (NewServeMux (GoMap.table [(PG, pongHandler)])).ServeHTTP http.ResponseWriter.fresh
              (requestOf [("cmd", "PG"), ("uid", "ABC123"), ("debug", "1"), ("UID", "zzz")]) :=
  ⟨by decide, by decide,
    C8_other_parameters_ignored (GoMap.table [(PG, pongHandler)]) http.ResponseWriter.fresh
      (requestOf [("cmd", "PG"), ("uid", "ABC123")])
      (requestOf [("cmd", "PG"), ("uid", "ABC123"), ("debug", "1"), ("UID", "zzz")])
      (by decide)⟩

/-- C10: a request without a `cmd` query parameter is dispatched on the command
with the empty string: for every registry, ServeHTTP looks up `Command("")`;
it responds 404 with an empty body, calling no handler, exactly when no handler
is bound to `Command("")`; otherwise it calls the handler bound to
`Command("")`, once, on the Params record of the request, whose Command field is
the empty string.  The key is not compared with the vocabulary PU, HB, CO, SW,
PG, of which `Command("")` is not a member. -/
theorem C10_missing_cmd_is_empty_command (hs : Handlers) (r : http.Request)
    (hno : r.URL.Query.index "cmd" = none) :
    Command.mk (r.URL.Query.Get "cmd") = Command.mk ""
      ∧ (((NewServeMux hs).ServeHTTP http.ResponseWriter.fresh r).w
            = { status := some 404, body := [] }
          ↔ hs.index (Command.mk "") = none)
      ∧ (hs.index (Command.mk "") = none →
          ((NewServeMux hs).ServeHTTP http.ResponseWriter.fresh r).calls = [])
      ∧ (∀ fn : HandlerFunc, hs.index (Command.mk "") = some fn →
          ((NewServeMux hs).ServeHTTP http.ResponseWriter.fresh r).calls
              = [Call.mk fn (Params.ofRequest r)]
            ∧ (Params.ofRequest r).Command = "")
      ∧ Command.mk "" ∉ vocabulary := by
  have hget : r.URL.Query.Get "cmd" = "" := url.Values.Get_absent r.URL.Query "cmd" hno
  have hkey : commandOf r = Command.mk "" := by unfold commandOf; rw [hget]
  refine ⟨by rw [hget], ?_, ?_, ?_, by decide⟩
  · constructor
    · intro h404
      cases hidx : hs.index (Command.mk "") with
      | none => rfl
      | some fn =>
        exact absurd h404 (dispatch_bound_not_404 hs r fn (by rw [hkey]; exact hidx))
    · intro hnone
      have hrun := dispatch_unbound hs r (by rw [hkey]; exact hnone)
      unfold dispatch at hrun
      rw [hrun]
      rfl
  · intro hnone
    have hrun := dispatch_unbound hs r (by rw [hkey]; exact hnone)
    unfold dispatch at hrun
    rw [hrun]
  · intro fn hsome
    exact ⟨dispatch_calls hs r fn (by rw [hkey]; exact hsome), hget⟩

/-- C10, at the request `uid=ABC123&CMD=PG`, which has no `cmd`: with a handler
bound to `Command("")` next to one bound to `PG`, the one for `Command("")` is
called and the response is 200. -/
theorem C10_missing_cmd_is_empty_command_witness :
    (requestOf [("uid", "ABC123"), ("CMD", "PG")]).URL.Query.index "cmd" = none
      ∧ ((NewServeMux (GoMap.table [(PG, pongHandler), (Command.mk "", emptyHandler)])).ServeHTTP
            http.ResponseWriter.fresh (requestOf [("uid", "ABC123"), ("CMD", "PG")])).calls
          = [Call.mk emptyHandler (Params.ofRequest (requestOf [("uid", "ABC123"), ("CMD", "PG")]))]
      ∧ (Params.ofRequest (requestOf [("uid", "ABC123"), ("CMD", "PG")])).Command = ""
      ∧ ((NewServeMux (GoMap.table [(PG, pongHandler), (Command.mk "", emptyHandler)])).ServeHTTP
            http.ResponseWriter.fresh (requestOf [("uid", "ABC123"), ("CMD", "PG")])).w
          = { status := some 200, body := [] } :=
  ⟨rfl,
    ((C10_missing_cmd_is_empty_command
        (GoMap.table [(PG, pongHandler), (Command.mk "", emptyHandler)])
        (requestOf [("uid", "ABC123"), ("CMD", "PG")]) rfl).2.2.2.1 emptyHandler rfl).1,
    ((C10_missing_cmd_is_empty_command
        (GoMap.table [(PG, pongHandler), (Command.mk "", emptyHandler)])
        (requestOf [("uid", "ABC123"), ("CMD", "PG")]) rfl).2.2.2.1 emptyHandler rfl).2,
    rfl⟩

end orbitip
